import Mathlib

/-!
Shallow embedding of the VS Code time-tracker's state machine and
persistence layer (files `tracker.ts` / `storage.ts` / `types.ts`).

Conventions of the embedding:
* Timestamps (`Date` objects, `getTime()` values, ISO strings) are epoch
  milliseconds, modelled as `Int`.
* A `YYYY-MM-DD` date key (`getTodayDateString`, `startTime.split('T')[0]`)
  is the UTC day index of the timestamp: `dateOf t = t.fdiv msPerDay`.
* JS `Map` objects and plain-object maps are insertion-ordered association
  lists; `setEntry` is `Map.set` (replace in place or append) and
  `getEntry?` is `Map.get`.
* External collaborators (the VS Code editor, the git identity provider,
  the wall clock) become explicit parameters: each operation takes `now`,
  and the resolved repository identity is passed in as `Option GitRepoInfo`.
* The filesystem of per-day JSON files is the association list
  `StorageService.files`; the debounce timer collapses to the flag
  `pendingSave` (a scheduled write that has not run yet).
-/

/-- One millisecond-count per UTC day. -/
def msPerDay : Int := 86400000

/-- UTC calendar-day index of an epoch-milliseconds timestamp; embeds
`toISOString().split('T')[0]` (and `getTodayDateString`). -/
def dateOf (t : Int) : Int := Int.fdiv t msPerDay

/-- `Map.get` on an insertion-ordered association list. -/
def getEntry? {K V : Type} [BEq K] (m : List (K × V)) (k : K) : Option V :=
  (m.find? (fun p => p.1 == k)).map (fun p => p.2)

/-- `Map.set` on an insertion-ordered association list: replace the first
binding of the key in place, else append a new binding. -/
def setEntry {K V : Type} [BEq K] (m : List (K × V)) (k : K) (v : V) :
    List (K × V) :=
  match m with
  | [] => [(k, v)]
  | p :: rest => if p.1 == k then (k, v) :: rest else p :: setEntry rest k v

/-- `LanguageTime` from types.ts: a JS object mapping language id to
milliseconds, as an insertion-ordered association list. -/
abbrev LanguageTime := List (String × Int)

/-- `acc[l] = (acc[l] || 0) + t` on a `LanguageTime` object. -/
def LanguageTime.add (m : LanguageTime) (lang : String) (t : Int) :
    LanguageTime :=
  setEntry m lang ((((getEntry? m lang)).getD 0) + t)

/-- `RepoActivity` from types.ts. -/
structure RepoActivity where
  repoPath : String
  repoName : String
  branchName : String
  remoteUrl : Option String
  timeSpent : Int
  filesEdited : List String
  languages : LanguageTime
deriving DecidableEq, Repr

/-- `TrackingSession` from types.ts (`sessionId` embeds the fresh ids of
`generateSessionId` as a counter value). -/
structure TrackingSession where
  sessionId : Nat
  startTime : Int
  endTime : Option Int
  totalDuration : Int
  activeTime : Int
  idleTime : Int
  repositories : List RepoActivity
deriving DecidableEq, Repr

/-- `RepoSummary` from types.ts. -/
structure RepoSummary where
  repoName : String
  repoPath : String
  branchesWorkedOn : List String
  totalTime : Int
  filesEdited : List String
  languages : LanguageTime
deriving DecidableEq, Repr

/-- `DailyData` from types.ts; `date` is the UTC day index of the record's
`YYYY-MM-DD` key. -/
structure DailyData where
  date : Int
  totalTime : Int
  activeTime : Int
  idleTime : Int
  sessions : List TrackingSession
  repositories : List RepoSummary
  languages : LanguageTime
  emailSent : Bool
  emailSentAt : Option Int
deriving DecidableEq, Repr

/-- `CurrentRepoInfo` from types.ts. -/
structure CurrentRepoInfo where
  path : String
  name : String
  branch : String
  remoteUrl : Option String
  activeFile : Option String
  language : Option String
  startTime : Int
deriving DecidableEq, Repr

/-- `TrackingState` from types.ts. -/
structure TrackingState where
  isTracking : Bool
  sessionStart : Int
  lastActivityTime : Int
  currentRepo : Option CurrentRepoInfo
  isWindowFocused : Bool
  isIdle : Bool
  sessionActiveTime : Int
  sessionIdleTime : Int
  idleStartTime : Option Int
deriving DecidableEq, Repr

/-- `GitRepoInfo` from gitService.ts: the identity provider's resolution. -/
structure GitRepoInfo where
  path : String
  name : String
  branch : String
  remoteUrl : Option String
deriving DecidableEq, Repr

/-- `TrackingConfig` from types.ts. -/
structure TrackingConfig where
  idleThresholdMinutes : Int
  heartbeatIntervalSeconds : Int
deriving DecidableEq, Repr

/-- `StorageService`'s mutable state (storage.ts): the per-day JSON files
on disk keyed by day index, the in-memory `currentDayData` cache, and
whether a debounced save is pending. -/
structure StorageService where
  files : List (Int × DailyData)
  currentDayData : Option DailyData
  pendingSave : Bool
deriving DecidableEq, Repr

/-- `createEmptyDailyData` (storage.ts). -/
def createEmptyDailyData (date : Int) : DailyData :=
  { date := date
    totalTime := 0
    activeTime := 0
    idleTime := 0
    sessions := []
    repositories := []
    languages := []
    emailSent := false
    emailSentAt := none }

/-- `StorageService.loadDailyData` (storage.ts): read the file for the
date, or an empty record when absent or unreadable (the corrupt-file
branch also lands on the empty record). -/
def StorageService.loadDailyData (st : StorageService) (date : Int) :
    DailyData :=
  (getEntry? st.files date).getD (createEmptyDailyData date)

/-- `StorageService.getTodayData` (storage.ts); `today` is the current
`getTodayDateString()` value. -/
def StorageService.getTodayData (st : StorageService) (today : Int) :
    DailyData × StorageService :=
  match st.currentDayData with
  | some d =>
      if d.date = today then (d, st)
      else
        let d := st.loadDailyData today
        (d, { st with currentDayData := some d })
  | none =>
      let d := st.loadDailyData today
      (d, { st with currentDayData := some d })

/-- `StorageService.saveTodayData` (storage.ts): cache the record and
schedule a debounced write. -/
def StorageService.saveTodayData (st : StorageService) (d : DailyData) :
    StorageService :=
  { st with currentDayData := some d, pendingSave := true }

/-- `StorageService.forceSave` (storage.ts): cancel the pending debounce
and synchronously write `currentDayData` to its date's file. -/
def StorageService.forceSave (st : StorageService) : StorageService :=
  match st.currentDayData with
  | some d =>
      { st with files := setEntry st.files d.date d, pendingSave := false }
  | none => { st with pendingSave := false }

/-- The session-list update inside `StorageService.updateSession`
(storage.ts): `findIndex` by `sessionId`, replace in place when found,
else push. -/
def upsertSessionList (sessions : List TrackingSession)
    (session : TrackingSession) : List TrackingSession :=
  match sessions.findIdx? (fun s => s.sessionId == session.sessionId) with
  | some i => sessions.set i session
  | none => sessions ++ [session]

/-- The per-session language aggregation inside `recalculateTotals`
(storage.ts): `session.repositories.reduce(...)` folding each repo's
languages into a fresh accumulator object. -/
def sessionLanguages (s : TrackingSession) : LanguageTime :=
  s.repositories.foldl
    (fun acc repo =>
      repo.languages.foldl (fun a p => LanguageTime.add a p.1 p.2) acc)
    []

/-- Folding one language object into another, entry by entry
(`data.languages[lang] = (data.languages[lang] || 0) + time`). -/
def mergeLanguages (dst src : LanguageTime) : LanguageTime :=
  src.foldl (fun a p => LanguageTime.add a p.1 p.2) dst

/-- The repository-merge step of `recalculateTotals` (storage.ts): merge
one session `RepoActivity` into the `repoMap` keyed by `repoPath`. -/
def mergeRepoInto (m : List (String × RepoSummary)) (repo : RepoActivity) :
    List (String × RepoSummary) :=
  match getEntry? m repo.repoPath with
  | some existing =>
      setEntry m repo.repoPath
        { existing with
          totalTime := existing.totalTime + repo.timeSpent
          branchesWorkedOn :=
            if repo.branchName ∈ existing.branchesWorkedOn then
              existing.branchesWorkedOn
            else existing.branchesWorkedOn ++ [repo.branchName]
          filesEdited :=
            repo.filesEdited.foldl
              (fun fs f => if f ∈ fs then fs else fs ++ [f])
              existing.filesEdited
          languages := mergeLanguages existing.languages repo.languages }
  | none =>
      m ++ [(repo.repoPath,
        { repoName := repo.repoName
          repoPath := repo.repoPath
          branchesWorkedOn := [repo.branchName]
          totalTime := repo.timeSpent
          filesEdited := repo.filesEdited
          languages := repo.languages })]

/-- `StorageService.recalculateTotals` (storage.ts): zero the derived
fields and recompute them all from the record's session list (the source
does this in one loop; the folds below accumulate the same quantities). -/
def recalculateTotals (data : DailyData) : DailyData :=
  { data with
    totalTime := data.sessions.foldl (fun a s => a + s.totalDuration) 0
    activeTime := data.sessions.foldl (fun a s => a + s.activeTime) 0
    idleTime := data.sessions.foldl (fun a s => a + s.idleTime) 0
    languages :=
      data.sessions.foldl (fun a s => mergeLanguages a (sessionLanguages s)) []
    repositories :=
      (data.sessions.foldl (fun m s => s.repositories.foldl mergeRepoInto m)
        []).map (fun p => p.2) }

/-- The record transformation performed by `StorageService.updateSession`
(storage.ts): upsert the session by id, then recompute all totals. -/
def updateSessionData (data : DailyData) (session : TrackingSession) :
    DailyData :=
  recalculateTotals { data with
    sessions := upsertSessionList data.sessions session }

/-- `StorageService.updateSession` (storage.ts). -/
def StorageService.updateSession (st : StorageService) (today : Int)
    (session : TrackingSession) : StorageService :=
  let r := st.getTodayData today
  r.2.saveTodayData (updateSessionData r.1 session)

/-- `StorageService.cleanupOldData` (storage.ts), over an abstract file
set: `keys` are the files' date keys, `parse` embeds `new Date(dateStr)`
with `none` for an invalid date (`NaN`, which compares false against the
cutoff, so the file is kept). The result is the list of surviving keys;
the cutoff is now minus 90 days. -/
def cleanupOldData {K : Type} (parse : K → Option Int) (now : Int)
    (keys : List K) : List K :=
  let cutoff := now - 90 * msPerDay
  keys.filter (fun k =>
    match parse k with
    | some t => ! decide (t < cutoff)
    | none => true)

/-- `TrackerService`'s mutable state (tracker.ts): the in-memory
`TrackingState`, the `repoActivityMap` keyed by `path:branch`, the
`currentSession`, and the configuration. `nextSessionId` embeds
`generateSessionId`'s fresh-id generation as a counter. -/
structure TrackerService where
  state : TrackingState
  repoActivityMap : List (String × RepoActivity)
  currentSession : TrackingSession
  config : TrackingConfig
  nextSessionId : Nat
deriving DecidableEq, Repr

/-- `initializeState` (tracker.ts); `focused` is the editor's
`window.state.focused` at the call. -/
def TrackingState.init (now : Int) (focused : Bool) : TrackingState :=
  { isTracking := false
    sessionStart := now
    lastActivityTime := now
    currentRepo := none
    isWindowFocused := focused
    isIdle := false
    sessionActiveTime := 0
    sessionIdleTime := 0
    idleStartTime := none }

/-- `createNewSession` (tracker.ts): a fresh zeroed session started now;
also advances the fresh-id counter. -/
def TrackerService.createNewSession (tr : TrackerService) (now : Int) :
    TrackingSession × TrackerService :=
  ({ sessionId := tr.nextSessionId
     startTime := now
     endTime := none
     totalDuration := 0
     activeTime := 0
     idleTime := 0
     repositories := [] },
   { tr with nextSessionId := tr.nextSessionId + 1 })

/-- The key `path:branch` under which a context accumulates activity. -/
def repoKey (path branch : String) : String := path ++ ":" ++ branch

/-- `addTimeToRepo` (tracker.ts): get or create the `RepoActivity` for the
context's key, add `timeMs` to its `timeSpent`, and when the context has a
language also add `timeMs` to that language's entry. -/
def TrackerService.addTimeToRepo (tr : TrackerService)
    (repo : CurrentRepoInfo) (timeMs : Int) : TrackerService :=
  let key := repoKey repo.path repo.branch
  let activity := (getEntry? tr.repoActivityMap key).getD
    { repoPath := repo.path
      repoName := repo.name
      branchName := repo.branch
      remoteUrl := repo.remoteUrl
      timeSpent := 0
      filesEdited := []
      languages := [] }
  let activity :=
    { activity with
      timeSpent := activity.timeSpent + timeMs
      languages :=
        match repo.language with
        | some lang => LanguageTime.add activity.languages lang timeMs
        | none => activity.languages }
  { tr with repoActivityMap := setEntry tr.repoActivityMap key activity }

/-- `enterIdleState` (tracker.ts). -/
def TrackerService.enterIdleState (tr : TrackerService) : TrackerService :=
  if tr.state.isIdle then tr
  else
    { tr with state :=
      { tr.state with
        isIdle := true
        idleStartTime := some tr.state.lastActivityTime } }

/-- `exitIdleState` (tracker.ts): close the idle interval into
`sessionIdleTime`. -/
def TrackerService.exitIdleState (tr : TrackerService) (now : Int) :
    TrackerService :=
  if tr.state.isIdle then
    let st :=
      match tr.state.idleStartTime with
      | some t0 =>
          { tr.state with
            sessionIdleTime := tr.state.sessionIdleTime + (now - t0) }
      | none => tr.state
    { tr with state := { st with isIdle := false, idleStartTime := none } }
  else tr

/-- `recordActivity` (tracker.ts): exit idle if idle, bill
`now - lastActivityTime` to the current context, set `lastActivityTime`. -/
def TrackerService.recordActivity (tr : TrackerService) (now : Int) :
    TrackerService :=
  let tr := if tr.state.isIdle then tr.exitIdleState now else tr
  let tr :=
    match tr.state.currentRepo with
    | some repo => tr.addTimeToRepo repo (now - tr.state.lastActivityTime)
    | none => tr
  { tr with state := { tr.state with lastActivityTime := now } }

/-- `finalizeRepoTime` (tracker.ts): bill `now - startTime` of the context
being switched away from. -/
def TrackerService.finalizeRepoTime (tr : TrackerService)
    (repo : CurrentRepoInfo) (now : Int) : TrackerService :=
  tr.addTimeToRepo repo (now - repo.startTime)

/-- `updateCurrentRepo` (tracker.ts). `repoInfo` is the identity
provider's resolution for the active file or workspace; `workspaceFolder`
is the first workspace folder `(fsPath, name)` used as the non-git
fallback; `language`/`activeFile` come from the active editor. When the
resolved path differs from the current context's, the old context is
finalized first; the replacement context starts now. -/
def TrackerService.updateCurrentRepo (tr : TrackerService) (now : Int)
    (repoInfo : Option GitRepoInfo) (workspaceFolder : Option (String × String))
    (language activeFile : Option String) : TrackerService :=
  let tr :=
    match tr.state.currentRepo, repoInfo with
    | some cur, some info =>
        if cur.path ≠ info.path then tr.finalizeRepoTime cur now else tr
    | _, _ => tr
  match repoInfo with
  | some info =>
      let cur : CurrentRepoInfo :=
        { path := info.path
          name := info.name
          branch := info.branch
          remoteUrl := info.remoteUrl
          activeFile := activeFile
          language := language
          startTime := now }
      { tr with state := { tr.state with currentRepo := some cur } }
  | none =>
      match workspaceFolder with
      | some wf =>
          let cur : CurrentRepoInfo :=
            { path := wf.1
              name := wf.2
              branch := "N/A"
              remoteUrl := none
              activeFile := activeFile
              language := language
              startTime := now }
          { tr with state := { tr.state with currentRepo := some cur } }
      | none => tr

/-- `handleEditorChange` (tracker.ts): record activity, then when an
editor is open re-resolve the context and stamp its language and file. -/
def TrackerService.handleEditorChange (tr : TrackerService) (now : Int)
    (editorOpen : Bool) (repoInfo : Option GitRepoInfo)
    (workspaceFolder : Option (String × String))
    (language activeFile : Option String) : TrackerService :=
  let tr := tr.recordActivity now
  if editorOpen then
    let tr := tr.updateCurrentRepo now repoInfo workspaceFolder language activeFile
    match tr.state.currentRepo with
    | some cur =>
        let cur := { cur with language := language, activeFile := activeFile }
        { tr with state := { tr.state with currentRepo := some cur } }
    | none => tr
  else tr

/-- `recordFileEdit` (tracker.ts): append the path to the current
context's `filesEdited` unless already present. -/
def TrackerService.recordFileEdit (tr : TrackerService) (filePath : String) :
    TrackerService :=
  match tr.state.currentRepo with
  | none => tr
  | some cur =>
      let key := repoKey cur.path cur.branch
      match getEntry? tr.repoActivityMap key with
      | some activity =>
          if filePath ∈ activity.filesEdited then tr
          else
            let activity :=
              { activity with
                filesEdited := activity.filesEdited ++ [filePath] }
            { tr with repoActivityMap :=
                setEntry tr.repoActivityMap key activity }
      | none => tr

/-- `updateTimeCounters` (tracker.ts): recompute the live session's
`totalDuration`/`idleTime`/`activeTime`, adding the in-progress idle
interval when currently idle. -/
def TrackerService.updateTimeCounters (tr : TrackerService) (now : Int) :
    TrackerService :=
  let sessionDuration := now - tr.currentSession.startTime
  let s :=
    { tr.currentSession with
      totalDuration := sessionDuration
      idleTime := tr.state.sessionIdleTime
      activeTime := sessionDuration - tr.state.sessionIdleTime }
  let s :=
    if tr.state.isIdle then
      match tr.state.idleStartTime with
      | some t0 =>
          let s := { s with idleTime := s.idleTime + (now - t0) }
          { s with activeTime := s.totalDuration - s.idleTime }
      | none => s
    else s
  { tr with currentSession := s }

/-- `saveCurrentSession` (tracker.ts): materialize the repositories array
from the activity map, stamp `endTime`, and upsert into today's record. -/
def TrackerService.saveCurrentSession (tr : TrackerService) (now : Int)
    (st : StorageService) : TrackerService × StorageService :=
  let sess :=
    { tr.currentSession with
      repositories := tr.repoActivityMap.map (fun p => p.2)
      endTime := some now }
  ({ tr with currentSession := sess },
   st.updateSession (dateOf now) sess)

/-- `handleDayChange` (tracker.ts): save the session being rolled over,
force a synchronous write, then reset the state (keeping tracking on),
open a fresh session and clear the activity map. -/
def TrackerService.handleDayChange (tr : TrackerService) (now : Int)
    (focused : Bool) (st : StorageService) :
    TrackerService × StorageService :=
  let r := tr.saveCurrentSession now st
  let st := r.2.forceSave
  let r2 := r.1.createNewSession now
  let tr :=
    { r2.2 with
      state := { TrackingState.init now focused with isTracking := true }
      currentSession := r2.1
      repoActivityMap := [] }
  (tr, st)

/-- `heartbeat` (tracker.ts): no-op unless tracking; on a calendar-day
mismatch perform the rollover and return; otherwise enter idle when the
inactivity gap strictly exceeds the threshold, update counters, save the
session, and read today's record for the UI callback. -/
def TrackerService.heartbeat (tr : TrackerService) (now : Int)
    (focused : Bool) (st : StorageService) :
    TrackerService × StorageService :=
  if tr.state.isTracking then
    let timeSinceLastActivity := now - tr.state.lastActivityTime
    let idleThresholdMs := tr.config.idleThresholdMinutes * 60 * 1000
    if dateOf now ≠ dateOf tr.currentSession.startTime then
      tr.handleDayChange now focused st
    else
      let tr :=
        if tr.state.isIdle = false ∧ timeSinceLastActivity > idleThresholdMs
        then tr.enterIdleState
        else tr
      let tr := tr.updateTimeCounters now
      let r := tr.saveCurrentSession now st
      let r2 := r.2.getTodayData (dateOf now)
      (r.1, r2.2)
  else (tr, st)

/-- `start` (tracker.ts): return immediately when already tracking; else
mark tracking, reset the activity anchor and session, and resolve the
initial context (listener registration and the heartbeat timer live in
the host editor and have no modelled state). -/
def TrackerService.start (tr : TrackerService) (now : Int)
    (repoInfo : Option GitRepoInfo) (workspaceFolder : Option (String × String))
    (language activeFile : Option String) : TrackerService :=
  if tr.state.isTracking then tr
  else
    let tr :=
      { tr with state :=
        { tr.state with
          isTracking := true
          sessionStart := now
          lastActivityTime := now } }
    let r := tr.createNewSession now
    let tr := { r.2 with currentSession := r.1 }
    tr.updateCurrentRepo now repoInfo workspaceFolder language activeFile

/-- `stop` (tracker.ts): return immediately when not tracking; else
finalize the current context, update counters, save and force-flush, and
clear the tracking flag (timer and listener teardown are host-editor
effects with no modelled state). -/
def TrackerService.stop (tr : TrackerService) (now : Int)
    (st : StorageService) : TrackerService × StorageService :=
  if tr.state.isTracking then
    let tr :=
      match tr.state.currentRepo with
      | some repo => tr.finalizeRepoTime repo now
      | none => tr
    let tr := tr.updateTimeCounters now
    let r := tr.saveCurrentSession now st
    let st := r.2.forceSave
    ({ r.1 with state := { r.1.state with isTracking := false } }, st)
  else (tr, st)

/-- Milliseconds accumulated so far for a context key in the activity
map (`0` when the key has no entry yet). -/
def billed (tr : TrackerService) (key : String) : Int :=
  ((getEntry? tr.repoActivityMap key).map (fun a => a.timeSpent)).getD 0

/-! ### Generic lemmas about the association-list map operations -/

theorem getEntry?_setEntry_self {K V : Type} [BEq K] [LawfulBEq K]
    (m : List (K × V)) (k : K) (v : V) :
    getEntry? (setEntry m k v) k = some v := by
  induction m with
  | nil => simp [setEntry, getEntry?]
  | cons p rest ih =>
    by_cases h : p.1 == k
    · simp [setEntry, h, getEntry?]
    · simp only [setEntry, h, if_false, Bool.false_eq_true]
      simpa [getEntry?, List.find?, h] using ih

theorem mem_setEntry {K V : Type} [BEq K] (m : List (K × V)) (k : K) (v : V)
    (q : K × V) (hq : q ∈ setEntry m k v) : q = (k, v) ∨ q ∈ m := by
  induction m with
  | nil => simpa [setEntry] using hq
  | cons p rest ih =>
    by_cases h : p.1 == k
    · simp only [setEntry, h, if_true] at hq
      rcases List.mem_cons.mp hq with h1 | h1
      · exact Or.inl h1
      · exact Or.inr (List.mem_cons_of_mem _ h1)
    · simp only [setEntry, h, if_false, Bool.false_eq_true] at hq
      rcases List.mem_cons.mp hq with h1 | h1
      · exact Or.inr (h1 ▸ List.mem_cons_self _ _)
      · rcases ih h1 with h2 | h2
        · exact Or.inl h2
        · exact Or.inr (List.mem_cons_of_mem _ h2)

theorem getEntry?_some_mem {K V : Type} [BEq K] (m : List (K × V)) (k : K)
    (v : V) (h : getEntry? m k = some v) : ∃ k', (k', v) ∈ m := by
  unfold getEntry? at h
  rcases Option.map_eq_some'.mp h with ⟨p, hp, hv⟩
  subst hv
  exact ⟨p.1, by simpa using List.mem_of_find?_eq_some hp⟩

/-! ### Lemmas about the session upsert -/

/-- Recursive characterization of `upsertSessionList`: replace the first
session with the same id, else append at the end. -/
def upsertAux (session : TrackingSession) :
    List TrackingSession → List TrackingSession
  | [] => [session]
  | t :: ts =>
      if t.sessionId == session.sessionId then session :: ts
      else t :: upsertAux session ts

theorem findIdx?_succ_shift (p : TrackingSession → Bool)
    (l : List TrackingSession) (i : Nat) :
    l.findIdx? p (i + 1) = (l.findIdx? p i).map (fun j => j + 1) := by
  exact List.findIdx?_succ

theorem upsertSessionList_eq_aux (l : List TrackingSession)
    (s : TrackingSession) : upsertSessionList l s = upsertAux s l := by
  induction l with
  | nil => rfl
  | cons t ts ih =>
    unfold upsertSessionList upsertAux
    rw [List.findIdx?_cons]
    by_cases h : t.sessionId == s.sessionId
    · simp [h]
    · simp only [h, if_false, Bool.false_eq_true, Nat.zero_add,
        List.findIdx?_succ]
      unfold upsertSessionList at ih
      cases hf : ts.findIdx? (fun x => x.sessionId == s.sessionId) with
      | none => simpa [hf] using congrArg (List.cons t) ih
      | some i => simpa [hf] using congrArg (List.cons t) ih

theorem upsertAux_idem (s : TrackingSession) (l : List TrackingSession) :
    upsertAux s (upsertAux s l) = upsertAux s l := by
  induction l with
  | nil => simp [upsertAux]
  | cons t ts ih =>
    by_cases h : t.sessionId == s.sessionId
    · simp [upsertAux, h]
    · simp [upsertAux, h, ih]

theorem upsertSessionList_idem (l : List TrackingSession)
    (s : TrackingSession) :
    upsertSessionList (upsertSessionList l s) s = upsertSessionList l s := by
  rw [upsertSessionList_eq_aux, upsertSessionList_eq_aux, upsertAux_idem]

theorem mem_upsertAux_self (s : TrackingSession) (l : List TrackingSession) :
    s ∈ upsertAux s l := by
  induction l with
  | nil => simp [upsertAux]
  | cons t ts ih =>
    by_cases h : t.sessionId == s.sessionId
    · simp [upsertAux, h]
    · simp [upsertAux, h, ih]

theorem mem_upsertSessionList_self (l : List TrackingSession)
    (s : TrackingSession) : s ∈ upsertSessionList l s := by
  rw [upsertSessionList_eq_aux]; exact mem_upsertAux_self s l

/-! ### Folding sums -/

theorem foldl_add_eq_sum {α : Type} (f : α → Int) (l : List α) (init : Int) :
    l.foldl (fun a x => a + f x) init = init + (l.map f).sum := by
  induction l generalizing init with
  | nil => simp
  | cons x xs ih => simp [ih, add_assoc]

theorem sum_map_add_of {α : Type} (fa fi ft : α → Int) (l : List α)
    (h : ∀ x ∈ l, fa x + fi x = ft x) :
    (l.map fa).sum + (l.map fi).sum = (l.map ft).sum := by
  induction l with
  | nil => simp
  | cons x xs ih =>
    have hx := h x (List.mem_cons_self x xs)
    have hr := ih (fun y hy => h y (List.mem_cons_of_mem x hy))
    simp only [List.map_cons, List.sum_cons]
    omega

/-! ### Small facts about the tracker operations -/

theorem addTimeToRepo_state (tr : TrackerService) (repo : CurrentRepoInfo)
    (t : Int) : (tr.addTimeToRepo repo t).state = tr.state := rfl

theorem billed_state_update (tr : TrackerService) (s : TrackingState)
    (key : String) : billed { tr with state := s } key = billed tr key := rfl

theorem billed_addTimeToRepo (tr : TrackerService) (repo : CurrentRepoInfo)
    (t : Int) :
    billed (tr.addTimeToRepo repo t) (repoKey repo.path repo.branch) =
      billed tr (repoKey repo.path repo.branch) + t := by
  unfold billed TrackerService.addTimeToRepo
  cases hq : getEntry? tr.repoActivityMap (repoKey repo.path repo.branch) with
  | none => simp [hq, getEntry?_setEntry_self]
  | some a => simp [hq, getEntry?_setEntry_self]

theorem exitIdleState_map (tr : TrackerService) (now : Int) :
    (tr.exitIdleState now).repoActivityMap = tr.repoActivityMap := by
  unfold TrackerService.exitIdleState
  by_cases h : tr.state.isIdle
  · cases tr.state.idleStartTime <;> simp [h]
  · simp [h]

theorem exitIdleState_of_idle (tr : TrackerService) (now t0 : Int)
    (h1 : tr.state.isIdle = true) (h2 : tr.state.idleStartTime = some t0) :
    tr.exitIdleState now =
      { tr with state :=
        { tr.state with
          sessionIdleTime := tr.state.sessionIdleTime + (now - t0)
          isIdle := false
          idleStartTime := none } } := by
  unfold TrackerService.exitIdleState
  rw [h2]
  simp [h1]

theorem updateTimeCounters_state (tr : TrackerService) (now : Int) :
    (tr.updateTimeCounters now).state = tr.state := by
  unfold TrackerService.updateTimeCounters
  by_cases h : tr.state.isIdle
  · cases tr.state.idleStartTime <;> simp [h]
  · simp [h]

theorem saveCurrentSession_state (tr : TrackerService) (now : Int)
    (st : StorageService) :
    ((tr.saveCurrentSession now st).1).state = tr.state := rfl

/-! ### Concrete fixtures used by counterexamples and witnesses -/

/-- A context for project `/a` on branch `main`, entered at time 0. -/
def ctxA : CurrentRepoInfo :=
  { path := "/a", name := "A", branch := "main", remoteUrl := none,
    activeFile := none, language := some "ts", startTime := 0 }

/-- The identity provider's resolution for a second project `/b`. -/
def infoB : GitRepoInfo :=
  { path := "/b", name := "B", branch := "main", remoteUrl := none }

/-- A fresh session started at time 0. -/
def sess0 : TrackingSession :=
  { sessionId := 0, startTime := 0, endTime := none, totalDuration := 0,
    activeTime := 0, idleTime := 0, repositories := [] }

/-- A tracker that started tracking at time 0 in context `ctxA`, with the
default configuration (3-minute idle threshold). -/
def tr0 : TrackerService :=
  { state :=
    { isTracking := true, sessionStart := 0, lastActivityTime := 0,
      currentRepo := some ctxA, isWindowFocused := true, isIdle := false,
      sessionActiveTime := 0, sessionIdleTime := 0, idleStartTime := none }
    repoActivityMap := []
    currentSession := sess0
    config := { idleThresholdMinutes := 3, heartbeatIntervalSeconds := 30 }
    nextSessionId := 1 }

/-- An empty storage: no files on disk, no cached day. -/
def st0 : StorageService :=
  { files := [], currentDayData := none, pendingSave := false }

/-- `tr0` with tracking switched off. -/
def trStopped : TrackerService :=
  { tr0 with state := { tr0.state with isTracking := false } }

/-- C9: start() is idempotent and stop() is idempotent — start() while
`isTracking` is already true returns immediately without creating a new
session, resetting counters, or changing any modelled state, and stop()
while not tracking returns immediately without finalizing, saving, or
mutating tracker or storage state. -/
theorem C9_start_stop_idempotent :
    (∀ (tr : TrackerService) (now : Int) (repoInfo : Option GitRepoInfo)
        (wf : Option (String × String)) (language activeFile : Option String),
      tr.state.isTracking = true →
      tr.start now repoInfo wf language activeFile = tr) ∧
    (∀ (tr : TrackerService) (now : Int) (st : StorageService),
      tr.state.isTracking = false →
      tr.stop now st = (tr, st)) := by
  constructor
  · intro tr now repoInfo wf language activeFile h
    unfold TrackerService.start
    simp [h]
  · intro tr now st h
    unfold TrackerService.stop
    simp [h]

/-- C9 witness: a tracking tracker is unchanged by `start`, and a stopped
tracker and its storage are unchanged by `stop`. -/
theorem C9_witness :
    tr0.start 99 none none none none = tr0 ∧
    trStopped.stop 99 st0 = (trStopped, st0) :=
  ⟨C9_start_stop_idempotent.1 tr0 99 none none none none rfl,
   C9_start_stop_idempotent.2 trStopped 99 st0 rfl⟩

/-- C6: for a heartbeat with `idleThresholdMinutes = 3` while tracking on
the session's own calendar day and not already Idle, the transition to
Idle occurs iff `now - lastActivityTime` is strictly greater than the
180000 ms threshold (a gap of exactly 3:00 does not trigger idle, 3:01
does), and on the transition `idleStartTime` is set to
`lastActivityTime`. -/
theorem C6_idle_threshold (tr : TrackerService) (now : Int) (focused : Bool)
    (st : StorageService)
    (h1 : tr.state.isTracking = true) (h2 : tr.state.isIdle = false)
    (h3 : tr.config.idleThresholdMinutes = 3)
    (h4 : dateOf now = dateOf tr.currentSession.startTime) :
    ((tr.heartbeat now focused st).1.state.isIdle = true ↔
      now - tr.state.lastActivityTime > 180000) ∧
    (now - tr.state.lastActivityTime > 180000 →
      (tr.heartbeat now focused st).1.state.idleStartTime =
        some tr.state.lastActivityTime) := by
  unfold TrackerService.heartbeat
  by_cases hc : now - tr.state.lastActivityTime > 180000
  · have hcond : tr.state.isIdle = false ∧
        now - tr.state.lastActivityTime >
          tr.config.idleThresholdMinutes * 60 * 1000 := by
      refine ⟨h2, ?_⟩
      rw [h3]; norm_num; exact hc
    simp only [h1, h4, ne_eq, not_true_eq_false, if_false, if_true,
      hcond, and_self, ite_true]
    simp only [saveCurrentSession_state, updateTimeCounters_state]
    unfold TrackerService.enterIdleState
    simp [h2, hc]
  · have hcond : ¬ (tr.state.isIdle = false ∧
        now - tr.state.lastActivityTime >
          tr.config.idleThresholdMinutes * 60 * 1000) := by
      rw [h3]; norm_num
      omega
    simp only [h1, h4, ne_eq, not_true_eq_false, if_false, if_true, ite_true]
    rw [if_neg hcond]
    simp only [saveCurrentSession_state, updateTimeCounters_state]
    simp [h2, hc]

/-- C6 witness: at the 3:01 gap the theorem's hypotheses hold and give the
transition; at the exact 3:00 gap the same iff shows no transition. -/
theorem C6_witness :
    (((tr0.heartbeat 180001 true st0).1.state.isIdle = true ↔
        (180001 : Int) - tr0.state.lastActivityTime > 180000) ∧
      ((180001 : Int) - tr0.state.lastActivityTime > 180000 →
        (tr0.heartbeat 180001 true st0).1.state.idleStartTime =
          some tr0.state.lastActivityTime)) ∧
    ((tr0.heartbeat 180000 true st0).1.state.isIdle = true ↔
      (180000 : Int) - tr0.state.lastActivityTime > 180000) :=
  ⟨C6_idle_threshold tr0 180001 true st0 rfl rfl rfl (by decide),
   (C6_idle_threshold tr0 180000 true st0 rfl rfl rfl (by decide)).1⟩

/-- C1 counterexample: the tracker enters idle at `lastActivityTime = 0`
(so the whole gap `[0, 300000]` is an idle interval) and `recordActivity`
at 300000 both accounts the gap as session idle time and adds the same
300000 ms to the current context's `timeSpent` — idle time is attributed
to the context, contradicting the claim that the gap is accounted as idle
time only and that the billed amount covers only Active-state time. -/
theorem C1_counterexample :
    (tr0.enterIdleState).state.isIdle = true ∧
    (tr0.enterIdleState).state.idleStartTime = some 0 ∧
    ((tr0.enterIdleState).recordActivity 300000).state.sessionIdleTime =
      300000 ∧
    0 < billed ((tr0.enterIdleState).recordActivity 300000)
      (repoKey ctxA.path ctxA.branch) ∧
    billed ((tr0.enterIdleState).recordActivity 300000)
      (repoKey ctxA.path ctxA.branch) = 300000 := by
  decide

/-- C1 amended: when `recordActivity(now)` fires while the state is Idle,
the interval `now - idleStartTime` is added to the session's idle time AND
the full gap `now - lastActivityTime` (which contains the idle interval)
is also added to the current context's `timeSpent`; idle time is therefore
attributed to the context as well, not accounted as idle time only. -/
theorem C1_amended (tr : TrackerService) (now t0 : Int)
    (repo : CurrentRepoInfo)
    (h1 : tr.state.isIdle = true) (h2 : tr.state.idleStartTime = some t0)
    (h3 : tr.state.currentRepo = some repo) :
    (tr.recordActivity now).state.sessionIdleTime =
      tr.state.sessionIdleTime + (now - t0) ∧
    billed (tr.recordActivity now) (repoKey repo.path repo.branch) =
      billed tr (repoKey repo.path repo.branch) +
        (now - tr.state.lastActivityTime) := by
  have e1 := exitIdleState_of_idle tr now t0 h1 h2
  unfold TrackerService.recordActivity
  rw [e1]
  simp only [h1, if_true, ite_true, h3]
  constructor
  · simp [addTimeToRepo_state]
  · have hb := billed_addTimeToRepo
      { tr with state :=
        { tr.state with
          sessionIdleTime := tr.state.sessionIdleTime + (now - t0)
          isIdle := false
          idleStartTime := none } } repo (now - tr.state.lastActivityTime)
    simpa [billed_state_update, billed] using hb

/-- C1 amended witness: the amended statement instantiated on the idle
tracker at time 300000. -/
theorem C1_amended_witness :
    ((tr0.enterIdleState).recordActivity 300000).state.sessionIdleTime =
      (tr0.enterIdleState).state.sessionIdleTime + (300000 - 0) ∧
    billed ((tr0.enterIdleState).recordActivity 300000)
        (repoKey ctxA.path ctxA.branch) =
      billed (tr0.enterIdleState) (repoKey ctxA.path ctxA.branch) +
        (300000 - (tr0.enterIdleState).state.lastActivityTime) :=
  C1_amended (tr0.enterIdleState) 300000 0 ctxA (by decide) (by decide)
    (by decide)

/-- A tracker whose clock anchor is at 100 with 50 ms already billed to
the `/a:main` context: used to exercise a backward clock jump. -/
def trClock : TrackerService :=
  { tr0 with
    state := { tr0.state with lastActivityTime := 100 }
    repoActivityMap := [("/a:main",
      { repoPath := "/a", repoName := "A", branchName := "main",
        remoteUrl := none, timeSpent := 50, filesEdited := [],
        languages := [] })] }

/-- C7 counterexample: with the clock moved backward (`now = 40` while
`lastActivityTime = 100`), `recordActivity` adds the negative elapsed
interval `-60` to the context's accumulated 50 ms, leaving `-10`: the
interval is not clamped to zero and the accumulator decreases. -/
theorem C7_counterexample :
    billed trClock (repoKey ctxA.path ctxA.branch) = 50 ∧
    billed (trClock.recordActivity 40) (repoKey ctxA.path ctxA.branch) =
      -10 ∧
    ¬ (billed trClock (repoKey ctxA.path ctxA.branch) ≤
        billed (trClock.recordActivity 40)
          (repoKey ctxA.path ctxA.branch)) := by
  decide

/-- C7 amended: negative elapsed intervals are NOT clamped to zero — each
accumulator update adds the signed interval directly: `recordActivity`
adds `now - lastActivityTime` to the current context, `finalizeRepoTime`
adds `now - startTime`, and `exitIdleState` adds `now - idleStartTime` to
the session idle time, so the accumulators can decrease when the system
clock moves backward. -/
theorem C7_amended :
    (∀ (tr : TrackerService) (now : Int) (repo : CurrentRepoInfo),
      tr.state.isIdle = false → tr.state.currentRepo = some repo →
      billed (tr.recordActivity now) (repoKey repo.path repo.branch) =
        billed tr (repoKey repo.path repo.branch) +
          (now - tr.state.lastActivityTime)) ∧
    (∀ (tr : TrackerService) (repo : CurrentRepoInfo) (now : Int),
      billed (tr.finalizeRepoTime repo now) (repoKey repo.path repo.branch) =
        billed tr (repoKey repo.path repo.branch) + (now - repo.startTime)) ∧
    (∀ (tr : TrackerService) (now t0 : Int),
      tr.state.isIdle = true → tr.state.idleStartTime = some t0 →
      (tr.exitIdleState now).state.sessionIdleTime =
        tr.state.sessionIdleTime + (now - t0)) := by
  refine ⟨?_, ?_, ?_⟩
  · intro tr now repo h1 h2
    unfold TrackerService.recordActivity
    simp only [h1, Bool.false_eq_true, if_false, ite_false, h2]
    have hb := billed_addTimeToRepo tr repo (now - tr.state.lastActivityTime)
    simpa [billed_state_update, billed] using hb
  · intro tr repo now
    exact billed_addTimeToRepo tr repo (now - repo.startTime)
  · intro tr now t0 h1 h2
    rw [exitIdleState_of_idle tr now t0 h1 h2]

/-- C7 amended witness: the unclamped additions instantiated on the
backward-clock tracker. -/
theorem C7_amended_witness :
    billed (trClock.recordActivity 40) (repoKey ctxA.path ctxA.branch) =
      billed trClock (repoKey ctxA.path ctxA.branch) +
        (40 - trClock.state.lastActivityTime) ∧
    billed (trClock.finalizeRepoTime ctxA 40)
        (repoKey ctxA.path ctxA.branch) =
      billed trClock (repoKey ctxA.path ctxA.branch) +
        (40 - ctxA.startTime) :=
  ⟨C7_amended.1 trClock 40 ctxA (by decide) (by decide),
   C7_amended.2.1 trClock ctxA 40⟩

theorem recordActivity_state_not_idle (tr : TrackerService) (now : Int)
    (h : tr.state.isIdle = false) :
    (tr.recordActivity now).state =
      { tr.state with lastActivityTime := now } := by
  unfold TrackerService.recordActivity
  simp only [h, Bool.false_eq_true, if_false, ite_false]
  cases hr : tr.state.currentRepo <;> simp [addTimeToRepo_state, hr, h]

theorem billed_recordActivity_not_idle (tr : TrackerService) (now : Int)
    (repo : CurrentRepoInfo)
    (h1 : tr.state.isIdle = false) (h2 : tr.state.currentRepo = some repo) :
    billed (tr.recordActivity now) (repoKey repo.path repo.branch) =
      billed tr (repoKey repo.path repo.branch) +
        (now - tr.state.lastActivityTime) := by
  unfold TrackerService.recordActivity
  simp only [h1, Bool.false_eq_true, if_false, ite_false, h2]
  have hb := billed_addTimeToRepo tr repo (now - tr.state.lastActivityTime)
  simpa [billed_state_update, billed] using hb

theorem billed_updateCurrentRepo_switch (tr : TrackerService) (now : Int)
    (cur : CurrentRepoInfo) (info : GitRepoInfo)
    (wf : Option (String × String)) (lang afile : Option String)
    (h2 : tr.state.currentRepo = some cur) (h3 : cur.path ≠ info.path) :
    billed (tr.updateCurrentRepo now (some info) wf lang afile)
        (repoKey cur.path cur.branch) =
      billed tr (repoKey cur.path cur.branch) + (now - cur.startTime) := by
  unfold TrackerService.updateCurrentRepo
  rw [h2]
  simp only [h3, ne_eq, not_false_eq_true, if_true, ite_true]
  have hb := billed_addTimeToRepo tr cur (now - cur.startTime)
  simpa [billed_state_update, billed, TrackerService.finalizeRepoTime]
    using hb

theorem currentRepo_updateCurrentRepo_switch (tr : TrackerService)
    (now : Int) (cur : CurrentRepoInfo) (info : GitRepoInfo)
    (wf : Option (String × String)) (lang afile : Option String)
    (h2 : tr.state.currentRepo = some cur) :
    (tr.updateCurrentRepo now (some info) wf lang afile).state.currentRepo =
      some
        { path := info.path, name := info.name, branch := info.branch,
          remoteUrl := info.remoteUrl, activeFile := afile,
          language := lang, startTime := now } := by
  unfold TrackerService.updateCurrentRepo
  rw [h2]

/-- The three-event trace behind the C3 counterexample: activity in
context `/a` at times 0 and 10, an editor change at 20 that switches to
project `/b`, and the next activity at 30. -/
def switchTrace : TrackerService :=
  ((tr0.recordActivity 10).handleEditorChange 20 true (some infoB) none
      (some "ts") (some "/b/f.ts")).recordActivity 30

/-- C3 counterexample: over the elapsed interval `[0, 30]` (the anchor
`lastActivityTime` starts at 0 and the last activity is at 30), the old
context `/a` is billed 40 ms (10 + 10 from `recordActivity`, plus the
whole tenure 20 again from `finalizeRepoTime`) and the new context `/b`
is billed 10, so the total 50 differs from the 30 ms that elapsed: the
interval is not split exactly and milliseconds are duplicated. -/
theorem C3_counterexample :
    billed switchTrace (repoKey ctxA.path ctxA.branch) = 40 ∧
    billed switchTrace (repoKey infoB.path infoB.branch) = 10 ∧
    ¬ (billed switchTrace (repoKey ctxA.path ctxA.branch) +
        billed switchTrace (repoKey infoB.path infoB.branch) = 30) := by
  decide

/-- C3 amended: on a context switch at time `t` (editor change resolving
to a different project path), the old context is billed BOTH the interval
since the last activity event (`t - lastActivityTime`, by the
`recordActivity` that precedes the switch) AND its whole tenure
`t - startTime` again (by `finalizeRepoTime`), so the elapsed interval is
not split exactly — the tenure portion is billed twice; the new context
then starts fresh at `t`. -/
theorem C3_amended (tr : TrackerService) (t : Int) (cur : CurrentRepoInfo)
    (info : GitRepoInfo) (wf : Option (String × String))
    (lang afile : Option String)
    (h1 : tr.state.isIdle = false) (h2 : tr.state.currentRepo = some cur)
    (h3 : cur.path ≠ info.path) :
    billed (tr.handleEditorChange t true (some info) wf lang afile)
        (repoKey cur.path cur.branch) =
      billed tr (repoKey cur.path cur.branch) +
        (t - tr.state.lastActivityTime) + (t - cur.startTime) ∧
    (tr.handleEditorChange t true (some info) wf lang afile).state.currentRepo.map
        (fun c => (c.path, c.startTime)) = some (info.path, t) := by
  have hs := recordActivity_state_not_idle tr t h1
  have hcur1 : (tr.recordActivity t).state.currentRepo = some cur := by
    rw [hs]; exact h2
  have hb1 := billed_recordActivity_not_idle tr t cur h1 h2
  have hb2 := billed_updateCurrentRepo_switch (tr.recordActivity t) t cur
    info wf lang afile hcur1 h3
  have hcr := currentRepo_updateCurrentRepo_switch (tr.recordActivity t) t
    cur info wf lang afile hcur1
  unfold TrackerService.handleEditorChange
  simp only [if_true, ite_true, hcr]
  constructor
  · rw [billed_state_update, hb2, hb1]
  · simp

/-- C3 amended witness: the double billing instantiated on the concrete
switch at time 20 after activity at 10. -/
theorem C3_amended_witness :
    billed ((tr0.recordActivity 10).handleEditorChange 20 true (some infoB)
        none (some "ts") (some "/b/f.ts")) (repoKey ctxA.path ctxA.branch) =
      billed (tr0.recordActivity 10) (repoKey ctxA.path ctxA.branch) +
        (20 - (tr0.recordActivity 10).state.lastActivityTime) +
        (20 - ctxA.startTime) ∧
    ((tr0.recordActivity 10).handleEditorChange 20 true (some infoB) none
        (some "ts") (some "/b/f.ts")).state.currentRepo.map
        (fun c => (c.path, c.startTime)) = some (infoB.path, 20) :=
  C3_amended (tr0.recordActivity 10) 20 ctxA infoB none (some "ts")
    (some "/b/f.ts") (by decide) (by decide) (by decide)

theorem recalc_sessions (d : DailyData) :
    (recalculateTotals d).sessions = d.sessions := rfl

theorem recalc_date (d : DailyData) :
    (recalculateTotals d).date = d.date := rfl

theorem recalc_emailSent (d : DailyData) :
    (recalculateTotals d).emailSent = d.emailSent := rfl

theorem recalc_emailSentAt (d : DailyData) :
    (recalculateTotals d).emailSentAt = d.emailSentAt := rfl

theorem recalc_eq_of (d d' : DailyData) (hd : d.date = d'.date)
    (hs : d.sessions = d'.sessions) (he : d.emailSent = d'.emailSent)
    (hea : d.emailSentAt = d'.emailSentAt) :
    recalculateTotals d = recalculateTotals d' := by
  cases d; cases d'
  simp_all [recalculateTotals]

/-- C4: upserting the same unchanged session a second time leaves the
record identical to the result of the first call — the session is
replaced by id rather than appended, and all derived totals are
recomputed from the session list each time, so the operation is
idempotent. -/
theorem C4_upsert_idempotent (data : DailyData) (session : TrackingSession) :
    updateSessionData (updateSessionData data session) session =
      updateSessionData data session := by
  unfold updateSessionData
  apply recalc_eq_of <;>
    simp [recalc_sessions, recalc_date, recalc_emailSent, recalc_emailSentAt,
      upsertSessionList_idem]

/-- C5: after recomputation, a record's `totalTime` is the sum of its
sessions' `totalDuration`; when every session satisfies
`activeTime + idleTime = totalDuration` (as all engine-produced sessions
do), the record satisfies `activeTime + idleTime = totalTime`; and the
engine's counter update always produces a live session with
`activeTime + idleTime = totalDuration`, including while an idle interval
is in progress. -/
theorem C5_conservation :
    (∀ d : DailyData,
      (recalculateTotals d).totalTime =
        (d.sessions.map (fun s => s.totalDuration)).sum) ∧
    (∀ d : DailyData,
      (∀ s ∈ d.sessions, s.activeTime + s.idleTime = s.totalDuration) →
      (recalculateTotals d).activeTime + (recalculateTotals d).idleTime =
        (recalculateTotals d).totalTime) ∧
    (∀ (tr : TrackerService) (now : Int),
      (tr.updateTimeCounters now).currentSession.activeTime +
          (tr.updateTimeCounters now).currentSession.idleTime =
        (tr.updateTimeCounters now).currentSession.totalDuration) := by
  refine ⟨?_, ?_, ?_⟩
  · intro d
    show d.sessions.foldl (fun a s => a + s.totalDuration) 0 = _
    rw [foldl_add_eq_sum]
    simp
  · intro d h
    show d.sessions.foldl (fun a s => a + s.activeTime) 0 +
        d.sessions.foldl (fun a s => a + s.idleTime) 0 =
      d.sessions.foldl (fun a s => a + s.totalDuration) 0
    rw [foldl_add_eq_sum, foldl_add_eq_sum, foldl_add_eq_sum]
    simp only [zero_add]
    exact sum_map_add_of _ _ _ d.sessions h
  · intro tr now
    unfold TrackerService.updateTimeCounters
    by_cases h : tr.state.isIdle
    · cases ho : tr.state.idleStartTime <;> simp [h, ho]
    · simp [h]

/-- A one-repository activity snapshot used in the recomputation
fixtures. -/
def rActA : RepoActivity :=
  { repoPath := "/a", repoName := "A", branchName := "m", remoteUrl := none,
    timeSpent := 2, filesEdited := ["f"], languages := [("ts", 2)] }

/-- A closed session with consistent counters (1 active + 1 idle = 2). -/
def sessA : TrackingSession :=
  { sessionId := 3, startTime := 7, endTime := some 9, totalDuration := 2,
    activeTime := 1, idleTime := 1, repositories := [rActA] }

/-- A one-session daily record for the recomputation fixtures. -/
def dEx : DailyData := { createEmptyDailyData 5 with sessions := [sessA] }

/-- C5 witness: the conservation statements instantiated on the concrete
one-session record and on `tr0` at time 42. -/
theorem C5_witness :
    (recalculateTotals dEx).totalTime =
      (dEx.sessions.map (fun s => s.totalDuration)).sum ∧
    (recalculateTotals dEx).activeTime + (recalculateTotals dEx).idleTime =
      (recalculateTotals dEx).totalTime ∧
    (tr0.updateTimeCounters 42).currentSession.activeTime +
        (tr0.updateTimeCounters 42).currentSession.idleTime =
      (tr0.updateTimeCounters 42).currentSession.totalDuration :=
  ⟨C5_conservation.1 dEx, C5_conservation.2.1 dEx (by decide),
   C5_conservation.2.2 tr0 42⟩

/-- C8: cleanup deletes exactly the records whose date key parses to a
timestamp older than now minus 90 days — a record dated 91 days before
now is deleted, one dated 89 days before is retained (for any
time-of-day `tod` within the day), and every record whose date key fails
to parse is left untouched. -/
theorem C8_retention :
    (∀ (parse : String → Option Int) (now : Int) (files : List String)
        (f : String), f ∈ files →
      (f ∉ cleanupOldData parse now files ↔
        ∃ t, parse f = some t ∧ t < now - 90 * msPerDay)) ∧
    (∀ (parse : String → Option Int) (files : List String) (D tod : Int)
        (a b : String),
      0 ≤ tod → tod < msPerDay →
      parse a = some (msPerDay * (D - 91)) →
      parse b = some (msPerDay * (D - 89)) →
      a ∈ files → b ∈ files →
      a ∉ cleanupOldData parse (msPerDay * D + tod) files ∧
      b ∈ cleanupOldData parse (msPerDay * D + tod) files) := by
  have main : ∀ (parse : String → Option Int) (now : Int)
      (files : List String) (f : String), f ∈ files →
      (f ∉ cleanupOldData parse now files ↔
        ∃ t, parse f = some t ∧ t < now - 90 * msPerDay) := by
    intro parse now files f hf
    unfold cleanupOldData
    cases hp : parse f with
    | none => simp [List.mem_filter, hf, hp]
    | some t =>
        simp only [List.mem_filter, hf, hp, true_and]
        constructor
        · intro h
          refine ⟨t, rfl, ?_⟩
          by_contra hlt
          exact h (by simp [hlt])
        · rintro ⟨t2, ht2, hlt⟩ hmem
          obtain rfl : t = t2 := (Option.some.injEq _ _).mp ht2
          simp [hlt] at hmem
  refine ⟨main, ?_⟩
  intro parse files D tod a b h0 h1 hpa hpb ha hb
  constructor
  · rw [main parse _ files a ha]
    refine ⟨_, hpa, ?_⟩
    unfold msPerDay
    omega
  · by_contra hc
    rcases (main parse _ files b hb).mp hc with ⟨t, ht, hlt⟩
    rw [hpb] at ht
    have h2 : t = msPerDay * (D - 89) := (Option.some.injEq _ _).mp ht.symm
    subst h2
    unfold msPerDay at hlt h1
    omega

/-- A parse function for the retention witness: `old` parses to day
`100 - 91`, `new` to day `100 - 89`, `junk` fails to parse. -/
def parseEx : String → Option Int := fun s =>
  if s = "old" then some (msPerDay * (100 - 91))
  else if s = "new" then some (msPerDay * (100 - 89))
  else none

/-- C8 witness: with now at 1 ms past midnight of day 100, the 91-day-old
file is deleted and the 89-day-old file is retained. -/
theorem C8_witness :
    "old" ∉ cleanupOldData parseEx (msPerDay * 100 + 1)
      ["old", "new", "junk"] ∧
    "new" ∈ cleanupOldData parseEx (msPerDay * 100 + 1)
      ["old", "new", "junk"] :=
  C8_retention.2 parseEx ["old", "new", "junk"] 100 1 "old" "new"
    (by decide) (by decide) (by decide) (by decide) (by decide) (by decide)

theorem nodup_append_singleton (l : List String) (x : String)
    (hl : l.Nodup) (hx : x ∉ l) : (l ++ [x]).Nodup := by
  simp [List.nodup_append, hl, hx]

theorem foldl_insertUnique_nodup (xs : List String) (l : List String)
    (hl : l.Nodup) :
    (xs.foldl (fun fs f => if f ∈ fs then fs else fs ++ [f]) l).Nodup := by
  induction xs generalizing l with
  | nil => simpa
  | cons x xs ih =>
    simp only [List.foldl_cons]
    by_cases hx : x ∈ l
    · simpa [hx] using ih l hl
    · simpa [hx] using ih _ (nodup_append_singleton l x hl hx)

theorem mergeRepoInto_nodup (m : List (String × RepoSummary))
    (repo : RepoActivity)
    (hm : ∀ p ∈ m, (p : String × RepoSummary).2.filesEdited.Nodup)
    (hr : repo.filesEdited.Nodup) :
    ∀ p ∈ mergeRepoInto m repo,
      (p : String × RepoSummary).2.filesEdited.Nodup := by
  intro p hp
  unfold mergeRepoInto at hp
  cases hg : getEntry? m repo.repoPath with
  | some existing =>
      rw [hg] at hp
      rcases mem_setEntry _ _ _ p hp with h | h
      · subst h
        have hex : existing.filesEdited.Nodup := by
          rcases getEntry?_some_mem m repo.repoPath existing hg with ⟨k', hk⟩
          exact hm (k', existing) hk
        exact foldl_insertUnique_nodup repo.filesEdited existing.filesEdited
          hex
      · exact hm p h
  | none =>
      rw [hg] at hp
      rcases List.mem_append.mp hp with h | h
      · exact hm p h
      · have h2 := List.mem_singleton.mp h
        subst h2
        exact hr

theorem foldl_mergeRepos_nodup (repos : List RepoActivity)
    (m : List (String × RepoSummary))
    (hm : ∀ p ∈ m, (p : String × RepoSummary).2.filesEdited.Nodup)
    (hr : ∀ r ∈ repos, r.filesEdited.Nodup) :
    ∀ p ∈ repos.foldl mergeRepoInto m,
      (p : String × RepoSummary).2.filesEdited.Nodup := by
  induction repos generalizing m with
  | nil => simpa using hm
  | cons r rs ih =>
    simp only [List.foldl_cons]
    exact ih (mergeRepoInto m r)
      (mergeRepoInto_nodup m r hm (hr r (List.mem_cons_self r rs)))
      (fun x hx => hr x (List.mem_cons_of_mem r hx))

theorem foldl_sessions_nodup (sessions : List TrackingSession)
    (m : List (String × RepoSummary))
    (hm : ∀ p ∈ m, (p : String × RepoSummary).2.filesEdited.Nodup)
    (hs : ∀ s ∈ sessions, ∀ r ∈ s.repositories, r.filesEdited.Nodup) :
    ∀ p ∈ sessions.foldl
        (fun m s => s.repositories.foldl mergeRepoInto m) m,
      (p : String × RepoSummary).2.filesEdited.Nodup := by
  induction sessions generalizing m with
  | nil => simpa using hm
  | cons s ss ih =>
    simp only [List.foldl_cons]
    exact ih (s.repositories.foldl mergeRepoInto m)
      (foldl_mergeRepos_nodup s.repositories m hm
        (hs s (List.mem_cons_self s ss)))
      (fun x hx => hs x (List.mem_cons_of_mem s hx))

/-- C10: the `filesEdited` lists contain no duplicate paths — when every
activity in the live map has duplicate-free `filesEdited`,
`recordFileEdit` (which checks membership before appending) preserves
that, and when every session repository of a record has duplicate-free
`filesEdited`, every `RepoSummary` of the recomputed record (whose merge
also checks membership) has duplicate-free `filesEdited`. -/
theorem C10_no_duplicate_files :
    (∀ (tr : TrackerService) (filePath : String),
      (∀ p ∈ tr.repoActivityMap,
        (p : String × RepoActivity).2.filesEdited.Nodup) →
      ∀ p ∈ (tr.recordFileEdit filePath).repoActivityMap,
        (p : String × RepoActivity).2.filesEdited.Nodup) ∧
    (∀ d : DailyData,
      (∀ s ∈ d.sessions, ∀ r ∈ s.repositories, r.filesEdited.Nodup) →
      ∀ u ∈ (recalculateTotals d).repositories, u.filesEdited.Nodup) := by
  constructor
  · intro tr filePath hm p hp
    unfold TrackerService.recordFileEdit at hp
    cases hc : tr.state.currentRepo with
    | none => rw [hc] at hp; exact hm p hp
    | some cur =>
      rw [hc] at hp
      dsimp only at hp
      cases hg : getEntry? tr.repoActivityMap (repoKey cur.path cur.branch)
        with
      | none => rw [hg] at hp; exact hm p hp
      | some activity =>
        rw [hg] at hp
        dsimp only at hp
        by_cases hf : filePath ∈ activity.filesEdited
        · rw [if_pos hf] at hp; exact hm p hp
        · rw [if_neg hf] at hp
          rcases mem_setEntry _ _ _ p hp with h | h
          · subst h
            have hact : activity.filesEdited.Nodup := by
              rcases getEntry?_some_mem _ _ _ hg with ⟨k', hk⟩
              exact hm (k', activity) hk
            exact nodup_append_singleton activity.filesEdited filePath hact
              hf
          · exact hm p h
  · intro d h u hu
    have hu2 : u ∈ (d.sessions.foldl
        (fun m s => s.repositories.foldl mergeRepoInto m) []).map
        (fun p => p.2) := hu
    rcases List.mem_map.mp hu2 with ⟨p, hp, hpu⟩
    subst hpu
    exact foldl_sessions_nodup d.sessions [] (by simp) h p hp

/-- An activity with one edited file, for the `recordFileEdit` witness. -/
def rActFE : RepoActivity :=
  { repoPath := "/a", repoName := "A", branchName := "main",
    remoteUrl := none, timeSpent := 0, filesEdited := ["x"],
    languages := [] }

/-- `tr0` with `rActFE` already in its activity map. -/
def trFE : TrackerService :=
  { tr0 with repoActivityMap := [("/a:main", rActFE)] }

/-- The repository summary that recomputing `dEx` produces. -/
def uEx : RepoSummary :=
  { repoName := "A", repoPath := "/a", branchesWorkedOn := ["m"],
    totalTime := 2, filesEdited := ["f"], languages := [("ts", 2)] }

/-- C10 witness: both no-duplicate statements instantiated — the entry
after recording a second file edit, and the summary of the recomputed
one-session record. -/
theorem C10_witness :
    (("/a:main", { rActFE with filesEdited := ["x", "y"] }) :
        String × RepoActivity).2.filesEdited.Nodup ∧
    uEx.filesEdited.Nodup :=
  ⟨C10_no_duplicate_files.1 trFE "y" (by decide)
      ("/a:main", { rActFE with filesEdited := ["x", "y"] }) (by decide),
   C10_no_duplicate_files.2 dEx (by decide) uEx (by decide)⟩

/-! ### Storage lemmas for the day-rollover analysis -/

theorem getEntry?_some_mem_key {K V : Type} [BEq K] [LawfulBEq K]
    (m : List (K × V)) (k : K) (v : V) (h : getEntry? m k = some v) :
    (k, v) ∈ m := by
  unfold getEntry? at h
  rcases Option.map_eq_some'.mp h with ⟨p, hp, hv⟩
  subst hv
  have hk : p.1 = k := by simpa using List.find?_some hp
  have hm := List.mem_of_find?_eq_some hp
  rw [← hk]
  simpa using hm

theorem loadDailyData_date (st : StorageService) (today : Int)
    (h3 : ∀ p ∈ st.files, (p : Int × DailyData).2.date = p.1) :
    (st.loadDailyData today).date = today := by
  unfold StorageService.loadDailyData
  cases hg : getEntry? st.files today with
  | none => simp [createEmptyDailyData]
  | some rec =>
      simp only [Option.getD_some]
      exact h3 (today, rec) (getEntry?_some_mem_key st.files today rec hg)

theorem getTodayData_date (st : StorageService) (today : Int)
    (h3 : ∀ p ∈ st.files, (p : Int × DailyData).2.date = p.1) :
    ((st.getTodayData today).1).date = today := by
  unfold StorageService.getTodayData
  cases hc : st.currentDayData with
  | some d =>
      by_cases hd : d.date = today
      · simp [hd]
      · simpa [hd] using loadDailyData_date st today h3
  | none => simpa using loadDailyData_date st today h3

theorem getTodayData_files (st : StorageService) (today : Int) :
    ((st.getTodayData today).2).files = st.files := by
  unfold StorageService.getTodayData
  cases hc : st.currentDayData with
  | some d => by_cases hd : d.date = today <;> simp [hd]
  | none => simp

theorem updateSessionData_date (data : DailyData)
    (session : TrackingSession) :
    (updateSessionData data session).date = data.date := rfl

theorem updateSessionData_sessions (data : DailyData)
    (session : TrackingSession) :
    (updateSessionData data session).sessions =
      upsertSessionList data.sessions session := rfl

theorem updateSession_spec (st : StorageService) (today : Int)
    (session : TrackingSession)
    (h3 : ∀ p ∈ st.files, (p : Int × DailyData).2.date = p.1) :
    ∃ d : DailyData,
      (st.updateSession today session).currentDayData = some d ∧
      (st.updateSession today session).files = st.files ∧
      d.date = today ∧ session ∈ d.sessions := by
  refine ⟨updateSessionData (st.getTodayData today).1 session, rfl, ?_, ?_, ?_⟩
  · show ((st.getTodayData today).2).files = st.files
    exact getTodayData_files st today
  · rw [updateSessionData_date]
    exact getTodayData_date st today h3
  · rw [updateSessionData_sessions]
    exact mem_upsertSessionList_self _ _

theorem forceSave_of_some (st : StorageService) (d : DailyData)
    (h : st.currentDayData = some d) :
    st.forceSave =
      { st with
        files := setEntry st.files d.date d
        pendingSave := false } := by
  unfold StorageService.forceSave
  rw [h]

/-- A tracker whose current session started at time 1000 (calendar day 0),
used to simulate a heartbeat that fires after midnight. -/
def trRoll : TrackerService :=
  { tr0 with currentSession := { sess0 with startTime := 1000 } }

/-- C2 counterexample: the session started on day 0; the first heartbeat
after midnight (at `86401000`, day 1) performs the rollover, but the
closed old session is stored in TODAY's (day 1's) record — the previous
day's (day 0's) record receives nothing at all — contradicting the claim
that the old session is closed and stored in the previous day's record. -/
theorem C2_counterexample :
    dateOf trRoll.currentSession.startTime = 0 ∧
    dateOf 86401000 = 1 ∧
    getEntry? (trRoll.heartbeat 86401000 true st0).2.files 0 = none ∧
    ((getEntry? (trRoll.heartbeat 86401000 true st0).2.files 1).map
      (fun d => d.sessions.map (fun s => s.sessionId))) = some [0] := by
  decide

theorem handleDayChange_storage (tr : TrackerService) (now : Int)
    (focused : Bool) (st : StorageService) :
    (tr.handleDayChange now focused st).2 =
      (st.updateSession (dateOf now)
        { tr.currentSession with
          repositories := tr.repoActivityMap.map (fun p => p.2)
          endTime := some now }).forceSave := rfl

/-- C2 amended: the first heartbeat after a calendar-day change performs
the rollover exactly once — the old session is closed (`endTime = now`,
counters unchanged since the previous counter update, so the tail of the
old day is not added to it) but it is stored in the NEW day's record (the
record `getTodayData` returns for the current date), not the previous
day's; a fresh zeroed session dated `now` is opened in memory (persisted
only by subsequent heartbeats); and `TrackingState` is reset to initial
with `isTracking` still true. -/
theorem C2_amended (tr : TrackerService) (now : Int) (focused : Bool)
    (st : StorageService)
    (h1 : tr.state.isTracking = true)
    (h2 : dateOf now ≠ dateOf tr.currentSession.startTime)
    (h3 : ∀ p ∈ st.files, (p : Int × DailyData).2.date = p.1) :
    (tr.heartbeat now focused st).1.state =
      { TrackingState.init now focused with isTracking := true } ∧
    (tr.heartbeat now focused st).1.currentSession =
      { sessionId := tr.nextSessionId, startTime := now, endTime := none,
        totalDuration := 0, activeTime := 0, idleTime := 0,
        repositories := [] } ∧
    (tr.heartbeat now focused st).1.repoActivityMap = [] ∧
    ∃ d : DailyData,
      (tr.heartbeat now focused st).2.currentDayData = some d ∧
      getEntry? (tr.heartbeat now focused st).2.files (dateOf now) =
        some d ∧
      d.date = dateOf now ∧
      ({ tr.currentSession with
          repositories := tr.repoActivityMap.map (fun p => p.2)
          endTime := some now } : TrackingSession) ∈ d.sessions := by
  have hh : tr.heartbeat now focused st =
      tr.handleDayChange now focused st := by
    unfold TrackerService.heartbeat
    simp only [h1, if_true, ite_true]
    rw [if_pos h2]
  rw [hh]
  refine ⟨rfl, rfl, rfl, ?_⟩
  rw [handleDayChange_storage]
  obtain ⟨d, hc, hf, hd, hs⟩ := updateSession_spec st (dateOf now)
    ({ tr.currentSession with
        repositories := tr.repoActivityMap.map (fun p => p.2)
        endTime := some now }) h3
  refine ⟨d, ?_, ?_, hd, hs⟩
  · rw [forceSave_of_some _ d hc]
    exact hc
  · rw [forceSave_of_some _ d hc]
    show getEntry?
      (setEntry (st.updateSession (dateOf now)
        { tr.currentSession with
          repositories := tr.repoActivityMap.map (fun p => p.2)
          endTime := some now }).files d.date d) (dateOf now) = some d
    rw [hd]
    exact getEntry?_setEntry_self _ _ _

/-- C2 amended witness: the rollover description instantiated on the
concrete after-midnight heartbeat. -/
theorem C2_amended_witness :
    (trRoll.heartbeat 86401000 true st0).1.state =
      { TrackingState.init 86401000 true with isTracking := true } ∧
    (trRoll.heartbeat 86401000 true st0).1.currentSession =
      { sessionId := trRoll.nextSessionId, startTime := 86401000,
        endTime := none, totalDuration := 0, activeTime := 0,
        idleTime := 0, repositories := [] } ∧
    (trRoll.heartbeat 86401000 true st0).1.repoActivityMap = [] ∧
    ∃ d : DailyData,
      (trRoll.heartbeat 86401000 true st0).2.currentDayData = some d ∧
      getEntry? (trRoll.heartbeat 86401000 true st0).2.files
        (dateOf 86401000) = some d ∧
      d.date = dateOf 86401000 ∧
      ({ trRoll.currentSession with
          repositories := trRoll.repoActivityMap.map (fun p => p.2)
          endTime := some 86401000 } : TrackingSession) ∈ d.sessions :=
  C2_amended trRoll 86401000 true st0 rfl (by decide) (by decide)
